import Mathlib

/-!
Verification development for the `jekyll_build` repository
(`src/jsonc.py`, `src/deploy.py`, `src/minify_html_js.py`).

The Python sources are shallowly embedded below: pure string processing
becomes functions on `List Char` / `String`, the JSON parser used by
`json.loads` is modelled by an executable recursive-descent parser, and
stateful interactions (HTTP responses, file contents, the directory walk)
become explicit data passed to the embedded functions.
-/

namespace JekyllBuild

/-! ### Python string primitives -/

/-- Python `s.startswith(p)` for a single prefix. -/
def pyStartsWith (s p : String) : Bool := p.toList.isPrefixOf s.toList

/-- Python `s.endswith(p)` for a single suffix. -/
def pyEndsWith (s p : String) : Bool := p.toList.isSuffixOf s.toList

/-! ## A model of JSON values and of a standard JSON parser (`json.loads`)

Number literals are stored by their lexeme; string escapes are decoded
(`\uXXXX` is decoded as a single code point; surrogate-pair combination is
not modelled, and the lenient `NaN`/`Infinity` extensions of Python's
`json.loads` are not modelled — no claim exercises them). -/

inductive Json where
  | null
  | bool (b : Bool)
  | num (lexeme : String)
  | str (s : String)
  | arr (elems : List Json)
  | obj (members : List (String × Json))
deriving Repr

/-- JSON insignificant whitespace characters. -/
def jsonWs (c : Char) : Bool := c = ' ' || c = '\t' || c = '\n' || c = '\r'

def skipWs (l : List Char) : List Char := l.dropWhile jsonWs

def isDigitChar (c : Char) : Bool := '0' ≤ c && c ≤ '9'

def isHexChar (c : Char) : Bool :=
  isDigitChar c || ('a' ≤ c && c ≤ 'f') || ('A' ≤ c && c ≤ 'F')

def hexVal (c : Char) : Nat :=
  if isDigitChar c then c.toNat - '0'.toNat
  else if 'a' ≤ c && c ≤ 'f' then c.toNat - 'a'.toNat + 10
  else c.toNat - 'A'.toNat + 10

/-- Parse the integer part of a JSON number after an optional sign:
`0` or a nonzero digit followed by digits. Returns (lexeme part, rest). -/
def parseIntPart : List Char → Option (List Char × List Char)
  | '0' :: rest => some (['0'], rest)
  | c :: rest =>
      if isDigitChar c then
        some (c :: rest.takeWhile isDigitChar, rest.dropWhile isDigitChar)
      else none
  | [] => none

/-- Parse an optional fractional part `.digits`. -/
def parseFracPart (l : List Char) : Option (List Char × List Char) :=
  match l with
  | '.' :: rest =>
      match rest.takeWhile isDigitChar with
      | [] => none
      | ds => some ('.' :: ds, rest.dropWhile isDigitChar)
  | _ => some ([], l)

/-- Parse an optional exponent part `[eE][+-]?digits`. -/
def parseExpPart (l : List Char) : Option (List Char × List Char) :=
  match l with
  | e :: rest =>
      if e = 'e' || e = 'E' then
        let (sign, rest2) :=
          match rest with
          | s :: r2 => if s = '+' || s = '-' then ([s], r2) else (([] : List Char), rest)
          | [] => ([], rest)
        match rest2.takeWhile isDigitChar with
        | [] => none
        | ds => some (e :: (sign ++ ds), rest2.dropWhile isDigitChar)
      else some ([], l)
  | [] => some ([], l)

/-- Parse a complete JSON number, returning its lexeme and the rest. -/
def parseNumber (l : List Char) : Option (List Char × List Char) :=
  let (sign, l1) := match l with | '-' :: r => ((['-'] : List Char), r) | _ => ([], l)
  match parseIntPart l1 with
  | none => none
  | some (ip, rest) =>
      match parseFracPart rest with
      | none => none
      | some (fp, rest2) =>
          match parseExpPart rest2 with
          | none => none
          | some (ep, rest3) => some (sign ++ ip ++ fp ++ ep, rest3)

/-- Parse the body of a JSON string after the opening quote; returns the
decoded characters and the input after the closing quote. -/
def parseStringBody : List Char → Option (List Char × List Char)
  | '"' :: rest => some ([], rest)
  | '\\' :: 'u' :: h1 :: h2 :: h3 :: h4 :: rest =>
      if isHexChar h1 && isHexChar h2 && isHexChar h3 && isHexChar h4 then
        match parseStringBody rest with
        | some (s, r) =>
            some (Char.ofNat (((hexVal h1 * 16 + hexVal h2) * 16 + hexVal h3) * 16 + hexVal h4) :: s, r)
        | none => none
      else none
  | '\\' :: e :: rest =>
      let decoded : Option Char :=
        if e = '"' then some '"'
        else if e = '\\' then some '\\'
        else if e = '/' then some '/'
        else if e = 'b' then some (Char.ofNat 8)
        else if e = 'f' then some (Char.ofNat 12)
        else if e = 'n' then some '\n'
        else if e = 'r' then some '\r'
        else if e = 't' then some '\t'
        else none
      match decoded with
      | some c =>
          match parseStringBody rest with
          | some (s, r) => some (c :: s, r)
          | none => none
      | none => none
  | c :: rest =>
      if c.toNat < 32 then none
      else
        match parseStringBody rest with
        | some (s, r) => some (c :: s, r)
        | none => none
  | [] => none

mutual

/-- Parse one JSON value at the head of the input (fuel-indexed). -/
def parseValue : Nat → List Char → Option (Json × List Char)
  | 0, _ => none
  | _ + 1, 'n' :: 'u' :: 'l' :: 'l' :: rest => some (.null, rest)
  | _ + 1, 't' :: 'r' :: 'u' :: 'e' :: rest => some (.bool true, rest)
  | _ + 1, 'f' :: 'a' :: 'l' :: 's' :: 'e' :: rest => some (.bool false, rest)
  | _ + 1, '"' :: rest =>
      match parseStringBody rest with
      | some (s, r) => some (.str (String.mk s), r)
      | none => none
  | fuel + 1, '[' :: rest =>
      match skipWs rest with
      | ']' :: r => some (.arr [], r)
      | l => match parseElems fuel l with
             | some (es, r) => some (.arr es, r)
             | none => none
  | fuel + 1, '{' :: rest =>
      match skipWs rest with
      | '}' :: r => some (.obj [], r)
      | l => match parseMembers fuel l with
             | some (ms, r) => some (.obj ms, r)
             | none => none
  | _ + 1, l =>
      match parseNumber l with
      | some (lex, rest) => some (.num (String.mk lex), rest)
      | none => none

/-- Parse a nonempty comma-separated list of array elements, including the
closing bracket. -/
def parseElems : Nat → List Char → Option (List Json × List Char)
  | 0, _ => none
  | fuel + 1, l =>
      match parseValue fuel l with
      | none => none
      | some (v, rest) =>
          match skipWs rest with
          | ',' :: r =>
              match parseElems fuel (skipWs r) with
              | some (es, r2) => some (v :: es, r2)
              | none => none
          | ']' :: r => some ([v], r)
          | _ => none

/-- Parse a nonempty comma-separated list of object members, including the
closing brace. -/
def parseMembers : Nat → List Char → Option (List (String × Json) × List Char)
  | 0, _ => none
  | fuel + 1, l =>
      match l with
      | '"' :: rest =>
          match parseStringBody rest with
          | none => none
          | some (k, r1) =>
              match skipWs r1 with
              | ':' :: r2 =>
                  match parseValue fuel (skipWs r2) with
                  | none => none
                  | some (v, r3) =>
                      match skipWs r3 with
                      | ',' :: r4 =>
                          match parseMembers fuel (skipWs r4) with
                          | some (ms, r5) => some ((String.mk k, v) :: ms, r5)
                          | none => none
                      | '}' :: r4 => some ([(String.mk k, v)], r4)
                      | _ => none
              | _ => none
      | _ => none

end

/-- Model of a standard strict JSON parser (`json.loads`): parse one value
surrounded by optional whitespace, requiring the whole input be consumed. -/
def parseJson (s : String) : Option Json :=
  match parseValue (s.length + 1) (skipWs s.toList) with
  | some (v, rest) => if skipWs rest = [] then some v else none
  | none => none

/-! ## `src/jsonc.py` — the comment-tolerant JSON loader

`loads` removes block comments matched by the non-greedy regex
`/\*.*?\*/` (DOTALL), splits on `[\r\n]+`, drops lines whose stripped
content starts with `//`, rejoins with `\n`, and calls `json.loads`. -/

/-- Scan for the first occurrence of `*/` and return the input after it
(the behaviour of the lazy `.*?\*/` tail of the block-comment regex). -/
def findCommentClose : List Char → Option (List Char)
  | '*' :: '/' :: rest => some rest
  | _ :: rest => findCommentClose rest
  | [] => none

/-- Fuel-indexed worker for the block-comment substitution; every step
consumes at least one character, so fuel equal to the input length always
suffices (the fuel-exhausted branch is unreachable from
`removeBlockComments`). When a `/*` has no later `*/`, the regex cannot
match at this position nor at any later one (no `*/` remains at all), so
the whole remainder is emitted unchanged. -/
def removeBCAux : Nat → List Char → List Char
  | 0, l => l
  | fuel + 1, l =>
      match l with
      | '/' :: '*' :: rest =>
          match findCommentClose rest with
          | some rest2 => removeBCAux fuel rest2
          | none => '/' :: '*' :: rest
      | c :: rest => c :: removeBCAux fuel rest
      | [] => []

/-- `re.sub(r'/\*.*?\*/', '', ·)` with DOTALL: repeatedly delete, left to
right, each `/*` together with everything up to the first following
`*/`. -/
def removeBlockComments (l : List Char) : List Char :=
  removeBCAux l.length l

def isLineBreak (c : Char) : Bool := c = '\r' || c = '\n'

/-- Fuel-indexed worker for the CR/LF-run split; every step consumes at
least one character, so fuel equal to the input length always suffices. -/
def splitLRAux : Nat → List Char → List (List Char)
  | 0, _ => [[]]
  | fuel + 1, l =>
      match l with
      | [] => [[]]
      | c :: rest =>
          if isLineBreak c then
            [] :: splitLRAux fuel (rest.dropWhile isLineBreak)
          else
            match splitLRAux fuel rest with
            | line :: lines => (c :: line) :: lines
            | [] => [[c]]

/-- `re.split(r'[\r\n]+', ·)`: split on maximal runs of CR/LF characters
(a leading or trailing run yields an empty segment at that end). -/
def splitLineRuns (l : List Char) : List (List Char) :=
  splitLRAux l.length l

/-- Python `str.isspace` on the ASCII whitespace characters (the Unicode
space characters are not modelled; no claim exercises them). -/
def pyIsSpace (c : Char) : Bool :=
  c = ' ' || c = '\t' || c = '\n' || c = '\r' || c = Char.ofNat 11 || c = Char.ofNat 12

/-- Python `str.strip()`: drop leading and trailing whitespace. -/
def pyStrip (l : List Char) : List Char :=
  ((l.dropWhile pyIsSpace).reverse.dropWhile pyIsSpace).reverse

/-- The generator condition `i.strip().startswith('//')` of `loads`. -/
def isCommentLine (l : List Char) : Bool :=
  ['/', '/'].isPrefixOf (pyStrip l)

/-- `'\n'.join(i for i in line_endings.split(t) if not i.strip().startswith('//'))`. -/
def commentFreeJoin (t : List Char) : String :=
  String.intercalate "\n"
    (((splitLineRuns t).filter (fun l => !isCommentLine l)).map fun l => String.mk l)

/-- The comment-stripping pipeline of `loads` before `json.loads`. -/
def jsoncStrip (s : String) : String :=
  commentFreeJoin (removeBlockComments s.toList)

/-- `jsonc.loads` on a string argument: strip comments, then parse. -/
def jsoncLoads (s : String) : Option Json :=
  parseJson (jsoncStrip s)

/-! ### `jsonc.load` and Python dynamic typing

`load(filename)` evaluates `loads(f.readlines())`. `f.readlines()` is a
*list* of line strings, and the first thing `loads` does with its argument
is `multiline_comments.sub('', string)`, whose argument must be a string
or bytes-like object — on a list it raises `TypeError`. -/

inductive PyStrOrList where
  | pystr (s : String)
  | pylist (l : List String)

inductive PyError where
  | typeError
deriving Repr, DecidableEq

/-- `re.Pattern.sub` applied to the block-comment pattern: succeeds on a
string, raises `TypeError` on a list. -/
def reSubBlockComments : PyStrOrList → Except PyError String
  | .pystr s => .ok (String.mk (removeBlockComments s.toList))
  | .pylist _ => .error .typeError

/-- `jsonc.loads` as invoked on an arbitrary argument (string or list). -/
def loadsPy (v : PyStrOrList) : Except PyError (Option Json) :=
  match reSubBlockComments v with
  | .error e => .error e
  | .ok t => .ok (parseJson (commentFreeJoin t.toList))

/-- Python `f.readlines()`: the lines of the file text, each keeping its
trailing newline (universal-newline translation to `\n` assumed done). -/
def readlinesAux : List Char → List Char → List String
  | acc, [] => if acc.isEmpty then [] else [String.mk acc.reverse]
  | acc, '\n' :: rest => String.mk (acc.reverse ++ ['\n']) :: readlinesAux [] rest
  | acc, c :: rest => readlinesAux (c :: acc) rest

def readlines (contents : String) : List String :=
  readlinesAux [] contents.toList

/-- `jsonc.load` on a file whose text is `contents`:
`loads(f.readlines())`. -/
def loadPy (contents : String) : Except PyError (Option Json) :=
  loadsPy (.pylist (readlines contents))

/-! ## `src/deploy.py` — the rsync deploy script

`make_rsync_cmd` builds the rsync argument list from a container of
config-derived fields; `main` fills the container from the parsed config
file (with defaults and string-to-list normalization) and the validated
command-line source directory. The platform is POSIX (`os.path.sep = "/"`);
Python truthiness (`if container.x:`) is modelled explicitly. -/

/-- `os.path.sep` on the POSIX platform the script targets. -/
def pathSep : String := "/"

/-- Python truthiness of an optional string (`None` and `''` are falsy). -/
def optStrTruthy : Option String → Bool
  | none => false
  | some s => !s.isEmpty

/-- Python truthiness of an optional integer (`None` and `0` are falsy). -/
def optIntTruthy : Option Int → Bool
  | none => false
  | some n => n != 0

/-- The field container built by `main` and consumed by `make_rsync_cmd`.
The Python attribute `include` is named `include_items` here (`include` is
a Lean keyword). -/
structure Container where
  flags : List String
  exclude_file : Option String
  exclude : List String
  include_file : Option String
  include_items : List String
  user : Option String
  port : Option Int
  delete : Bool
  site_dir : String
  remote_path : String

/-- `make_rsync_cmd(container)` with the global `verbosity` passed
explicitly. -/
def makeRsyncCmd (verbosity : Int) (c : Container) : List String :=
  let cmd : List String := ["rsync"]
  let cmd := if verbosity = 1 then cmd ++ ["--verbose"]
             else if verbosity = -1 then cmd ++ ["--quiet"] else cmd
  let cmd := if !c.flags.isEmpty then cmd ++ c.flags else cmd
  let cmd := match c.exclude_file with
             | some f => if !f.isEmpty then cmd ++ ["--exclude-from", f] else cmd
             | none => cmd
  let cmd := if !c.exclude.isEmpty then
               cmd ++ (c.exclude.map fun f => ["--exclude", f]).flatten else cmd
  let cmd := match c.include_file with
             | some f => if !f.isEmpty then cmd ++ ["--include-from", f] else cmd
             | none => cmd
  let cmd := if !c.include_items.isEmpty then
               cmd ++ (c.include_items.map fun f => ["--include", f]).flatten else cmd
  let cmd := if optStrTruthy c.user && optIntTruthy c.port then
               cmd ++ ["--rsh=ssh -p" ++ toString (c.port.getD 0)] else cmd
  let cmd := if c.delete then cmd ++ ["--delete"] else cmd
  let localPath := if !pyEndsWith c.site_dir pathSep && !pyEndsWith c.site_dir "/" then
                     c.site_dir ++ pathSep else c.site_dir
  let remoteParts := (if optStrTruthy c.user then [c.user.getD ""] else []) ++ [c.remote_path]
  let remote := String.intercalate ":" remoteParts
  cmd ++ [localPath, remote]

/-- Modelled from the spec: the construction order stated by the spec for
the command builder — verbosity flag, extra flags, exclude-from file,
per-item excludes, include-from file, per-item includes, the single
remote-shell-with-port token (only when both user and port are given),
delete flag, local path with separator suffix, remote target
(`user:remote_path` when a user is given, bare `remote_path` otherwise).
"Present"/"given" is read as the code's own test, Python truthiness. -/
def rsyncCmdSpec (verbosity : Int) (c : Container) : List String :=
  ["rsync"]
  ++ (if verbosity = 1 then ["--verbose"] else if verbosity = -1 then ["--quiet"] else [])
  ++ c.flags
  ++ (match c.exclude_file with
      | some f => if !f.isEmpty then ["--exclude-from", f] else []
      | none => [])
  ++ (c.exclude.map fun f => ["--exclude", f]).flatten
  ++ (match c.include_file with
      | some f => if !f.isEmpty then ["--include-from", f] else []
      | none => [])
  ++ (c.include_items.map fun f => ["--include", f]).flatten
  ++ (if optStrTruthy c.user && optIntTruthy c.port then
        ["--rsh=ssh -p" ++ toString (c.port.getD 0)] else [])
  ++ (if c.delete then ["--delete"] else [])
  ++ [if pyEndsWith c.site_dir "/" then c.site_dir else c.site_dir ++ "/",
      if optStrTruthy c.user then c.user.getD "" ++ ":" ++ c.remote_path else c.remote_path]

/-! ### `shlex.split` (POSIX mode), used to normalise a string `flags`

An unterminated quote or a trailing backslash raises `ValueError` in
Python (`none` here). -/

def shlexIsWs (c : Char) : Bool := c = ' ' || c = '\t' || c = '\r' || c = '\n'

/-- Content of a single-quoted section: everything literal until `'`. -/
def shlexSingleQuoted : List Char → Option (List Char × List Char)
  | [] => none
  | '\'' :: r => some ([], r)
  | c :: r =>
      match shlexSingleQuoted r with
      | some (s, rest) => some (c :: s, rest)
      | none => none

/-- Content of a double-quoted section: `\` escapes `"` and `\`, and is
kept literally before any other character. -/
def shlexDoubleQuoted : List Char → Option (List Char × List Char)
  | [] => none
  | '"' :: r => some ([], r)
  | '\\' :: c :: r =>
      match shlexDoubleQuoted r with
      | some (s, rest) =>
          if c = '"' || c = '\\' then some (c :: s, rest)
          else some ('\\' :: c :: s, rest)
      | none => none
  | '\\' :: [] => none
  | c :: r =>
      match shlexDoubleQuoted r with
      | some (s, rest) => some (c :: s, rest)
      | none => none

/-- Read one word starting at a non-whitespace position: plain characters,
quoted sections and backslash escapes, until unquoted whitespace or the
end of the input. Returns the word (reversed accumulator) and the rest. -/
def shlexWord : Nat → List Char → List Char → Option (List Char × List Char)
  | 0, _, _ => none
  | _ + 1, [], acc => some (acc.reverse, [])
  | fuel + 1, c :: rest, acc =>
      if shlexIsWs c then some (acc.reverse, rest)
      else if c = '\'' then
        match shlexSingleQuoted rest with
        | some (s, r2) => shlexWord fuel r2 (s.reverse ++ acc)
        | none => none
      else if c = '"' then
        match shlexDoubleQuoted rest with
        | some (s, r2) => shlexWord fuel r2 (s.reverse ++ acc)
        | none => none
      else if c = '\\' then
        match rest with
        | [] => none
        | d :: r2 => shlexWord fuel r2 (d :: acc)
      else shlexWord fuel rest (c :: acc)

def shlexSplitAux : Nat → List Char → Option (List String)
  | 0, _ => none
  | fuel + 1, l =>
      match l.dropWhile shlexIsWs with
      | [] => some []
      | l2 =>
          match shlexWord (l2.length + 1) l2 [] with
          | none => none
          | some (tok, rest) =>
              match shlexSplitAux fuel rest with
              | some toks => some (String.mk tok :: toks)
              | none => none

/-- Python `shlex.split` in POSIX mode. -/
def shlexSplit (s : String) : Option (List String) :=
  shlexSplitAux (s.length + 1) s.toList

/-! ### Reading the parsed config file (`main`, lines 129–150)

`main` reads fields out of the parsed JSON dict with `config.get(key,
default)` and then normalises `flags`/`include`/`exclude` from strings to
lists. Config values of shapes that make the script crash later (e.g. a
numeric `flags`) are outside this model. -/

/-- `dict.get key` on a parsed JSON object (for duplicate keys Python's
dict keeps the last occurrence); `none` on a non-object. -/
def Json.lookupKey (j : Json) (key : String) : Option Json :=
  match j with
  | .obj kvs => ((kvs.filter fun kv => kv.1 == key).getLast?).map fun kv => kv.2
  | _ => none

/-- Python truthiness of a parsed JSON value (a number is falsy exactly
when its lexeme has no nonzero digit, e.g. `0`, `0.0`, `-0e2`). -/
def jsonTruthy : Json → Bool
  | .null => false
  | .bool b => b
  | .num lexeme => lexeme.toList.any fun c => isDigitChar c && c != '0'
  | .str s => !s.isEmpty
  | .arr l => !l.isEmpty
  | .obj m => !m.isEmpty

/-- A config value that may be a string or a list of strings. -/
inductive StrOrList where
  | str (s : String)
  | list (l : List String)

def asStrOrList : Json → Option StrOrList
  | .str s => some (.str s)
  | .arr xs =>
      if xs.all (fun x => match x with | .str _ => true | _ => false) then
        some (.list (xs.filterMap fun x => match x with | .str s => some s | _ => none))
      else none
  | _ => none

/-- `config.get(key, default)` for the string/list-valued keys; a present
value of an unmodelled shape (which crashes the script downstream) falls
back to the default. -/
def getStrOrListD (j : Json) (key : String) (d : StrOrList) : StrOrList :=
  match j.lookupKey key with
  | none => d
  | some v => (asStrOrList v).getD d

def getStr? (j : Json) (key : String) : Option String :=
  match j.lookupKey key with
  | some (.str s) => some s
  | _ => none

/-- `config.get('port', None)` for an integer port (non-integer ports are
not modelled). -/
def getInt? (j : Json) (key : String) : Option Int :=
  match j.lookupKey key with
  | some (.num lexeme) => lexeme.toInt?
  | _ => none

/-- The raw config fields read by `main` before normalisation. -/
structure RawConfig where
  method : String
  user : Option String
  remote_path : Option String
  delete : Bool
  port : Option Int
  flags : StrOrList
  exclude : StrOrList
  include_items : StrOrList
  exclude_from : Option String
  include_from : Option String

/-- Lines 129–144 of `main`: field extraction with defaults
(`method` defaults to `''`; a non-string `method` also fails the
`== 'rsync'` test, so it is folded into `''`). -/
def rawOfJson (cfg : Json) : RawConfig where
  method := match cfg.lookupKey "method" with
            | some (.str s) => s
            | _ => ""
  user := getStr? cfg "user"
  remote_path := getStr? cfg "remote_path"
  delete := match cfg.lookupKey "delete" with
            | some v => jsonTruthy v
            | none => false
  port := getInt? cfg "port"
  flags := getStrOrListD cfg "flags" (.str "-avz")
  exclude := getStrOrListD cfg "exclude" (.list [])
  include_items := getStrOrListD cfg "include" (.list [])
  exclude_from := getStr? cfg "exclude-from"
  include_from := getStr? cfg "include-from"

/-- Lines 131–150 of `main`: build the container from the raw config and
the validated command-line source directory (`site_dir` from the config is
ignored apart from a warning). `none` models a crash: `shlex.split`
raising `ValueError` on a malformed `flags` string, or the `TypeError`
from joining a missing `remote_path` in `make_rsync_cmd`. -/
def buildContainer (rc : RawConfig) (source : String) : Option Container :=
  match rc.remote_path with
  | none => none
  | some rp =>
      let flags? := match rc.flags with
                    | .str v => shlexSplit v
                    | .list l => some l
      match flags? with
      | none => none
      | some fl =>
          some { flags := fl
                 exclude_file := rc.exclude_from
                 exclude := match rc.exclude with | .str v => [v] | .list l => l
                 include_file := rc.include_from
                 include_items := match rc.include_items with | .str v => [v] | .list l => l
                 user := rc.user
                 port := rc.port
                 delete := rc.delete
                 site_dir := source
                 remote_path := rp }

/-- The command the deploy script constructs from raw config fields and
the validated source directory. -/
def cmdFromRaw (verbosity : Int) (rc : RawConfig) (source : String) : Option (List String) :=
  (buildContainer rc source).map (makeRsyncCmd verbosity)

/-- `main` up to the construction of the rsync command: reject a config
whose `method` is not `'rsync'` (the script exits), then build the
container and the command. -/
def deployMainCmd (verbosity : Int) (cfg : Json) (source : String) : Option (List String) :=
  let rc := rawOfJson cfg
  if rc.method ≠ "rsync" then none
  else cmdFromRaw verbosity rc source

/-- The default of the `-c` (`--config`) option in `parse_args`. -/
def deployConfigDefault : String := "_deploy.json"

/-- The `config_file` argument type of `parse_args`, applied to the text
of the configuration file: `json.loads(f.read())`, with
`json.JSONDecodeError` turned into an `argparse.ArgumentTypeError`
(modelled as `Except.error ()`). -/
def configFileParse (contents : String) : Except Unit Json :=
  match parseJson contents with
  | some v => .ok v
  | none => .error ()

/-- The scenario config of the spec's end-to-end example, as a parsed
JSON value. -/
def scenarioCfg : Json :=
  .obj [("method", .str "rsync"), ("user", .str "u"),
        ("remote_path", .str "/srv/site"), ("delete", .bool true)]

/-- The scenario config of the spec's end-to-end example, as config file
text. -/
def scenarioCfgText : String :=
  "\x7b\"method\":\"rsync\",\"user\":\"u\",\"remote_path\":\"/srv/site\",\"delete\":true\x7d"

/-- A sample raw config (all-string fields populated) used to evaluate
theorems on concrete inputs. -/
def witnessRawConfig : RawConfig where
  method := "rsync"
  user := some "u"
  remote_path := some "/srv"
  delete := false
  port := none
  flags := .str "-avz"
  exclude := .list []
  include_items := .list []
  exclude_from := none
  include_from := none

/-! ## `src/minify_html_js.py` — the minification walker

`minify_js_file` posts the file contents to a web minifier and is embedded
as a function of the file content and the response it receives; `main`'s
`os.walk` traversal is embedded over an explicit directory tree. -/

/-- The outcome of one `requests.post` call as `minify_js_file` observes
it: an HTTP response with a status and body, or a transport-level failure
(`ConnectionError`, `Timeout`, `TooManyRedirects`). -/
inductive JsResponse where
  | http (status : Nat) (body : String)
  | transport

/-- `raise_for_status` raises `HTTPError` exactly for 4xx/5xx statuses. -/
def isHttpErrorStatus (status : Nat) : Bool := 400 ≤ status && status < 600

/-- One run of `minify_js_file` on a file whose current content is
`content`, receiving `resp`: returns the file content afterwards and the
function's return value (`some 429` for the rate-limit case, `none` — the
implicit Python `None` — otherwise). The file is truncated and rewritten
(content becomes the response body) only on a non-error response whose
body does not start with `// Error`, and only when not a dry run. -/
def minifyJsStep (dryRun : Bool) (resp : JsResponse) (content : String) :
    String × Option Nat :=
  match resp with
  | .transport => (content, none)
  | .http status body =>
      if isHttpErrorStatus status then
        if status = 429 then (content, some 429) else (content, none)
      else
        if !pyStartsWith body "// Error" then
          (if dryRun then content else body, none)
        else (content, none)

/-- A response on which `minify_js_file` returns 429. -/
def respIs429 : JsResponse → Bool
  | .http status _ => status == 429
  | .transport => false

/-- A response on which `minify_js_file` takes a failure path: a
transport-level error, an HTTP error status (including 429), or a body
beginning with the error marker `// Error`. -/
def jsAttemptFails : JsResponse → Bool
  | .transport => true
  | .http status body =>
      if isHttpErrorStatus status then true else pyStartsWith body "// Error"

/-- A response on which `minify_js_file` obtains a successful
minification result. -/
def jsAttemptSucceeds : JsResponse → Bool
  | .transport => false
  | .http status body => !isHttpErrorStatus status && !pyStartsWith body "// Error"

/-- The outcome of the retry loop: final file content, number of
`minify_js_file` calls issued, and total seconds slept. -/
structure RetryOutcome where
  content : String
  requests : Nat
  sleepSeconds : Nat
deriving Repr, DecidableEq

/-- Lines 170–175 of `main`: call `minify_js_file`; while the result is
429, sleep 90 seconds and call it again. The list holds the successive
responses the attempts receive (one per request, in order); the loop
consumes one per call, so an all-429 list models a loop still blocked in
backoff when the responses run out. -/
def jsRetryLoop (dryRun : Bool) : List JsResponse → String → RetryOutcome
  | [], content => ⟨content, 0, 0⟩
  | resp :: rest, content =>
      let (content2, result) := minifyJsStep dryRun resp content
      if result = some 429 then
        let out := jsRetryLoop dryRun rest content2
        ⟨out.content, out.requests + 1, out.sleepSeconds + 90⟩
      else ⟨content2, 1, 0⟩

/-! ### The directory walk of `main` -/

/-- A directory tree: name, subdirectories, and file basenames. -/
inductive FsDir where
  | mk (name : String) (subdirs : List FsDir) (files : List String)

def FsDir.name : FsDir → String | .mk n _ _ => n
def FsDir.subdirs : FsDir → List FsDir | .mk _ s _ => s
def FsDir.files : FsDir → List String | .mk _ _ f => f

/-- `os.path.join(root, name)` on POSIX. -/
def pathJoin (root name : String) : String := root ++ "/" ++ name

mutual

/-- `os.walk(root)` top-down without pruning: every directory of the tree
is enumerated (its `root` path paired with its file basenames), parents
before children. The `dirs` component of the Python triple is never read
or mutated by `main`, so it is not carried. -/
def osWalk (root : String) (d : FsDir) : List (String × List String) :=
  match d with
  | .mk _ subs files => (root, files) :: osWalkList root subs

/-- The walks of a directory's subdirectories, in order. -/
def osWalkList (root : String) : List FsDir → List (String × List String)
  | [] => []
  | d :: rest => osWalk (pathJoin root d.name) d ++ osWalkList root rest

end

/-- Does `needle` occur as a contiguous substring of `hay` (Python's
`needle in hay`)? The empty needle occurs in everything. -/
def containsSub (hay needle : List Char) : Bool :=
  needle.isPrefixOf hay ||
    match hay with
    | [] => false
    | _ :: t => containsSub t needle

/-- The command-line arguments of the minify script that `main` reads. -/
structure MinifyArgs where
  omit_dirname_includes : List String
  omit_filename_starts_with : List String
  omit_filename_includes : List String
  extensions : List String
  js : Bool
  html : Bool

/-- Which minifier a file is dispatched to. -/
inductive FileKind where
  | js
  | html
deriving Repr, DecidableEq

/-- Lines 158–190 of `main`, for one file basename in directory `root`:
`none` when the file is skipped (omitted prefix, omitted substring,
extension not selected, or the matching minifier not enabled), otherwise
the joined filename with the minifier it is dispatched to. -/
def classifyFile (args : MinifyArgs) (root file : String) : Option (String × FileKind) :=
  if args.omit_filename_starts_with.any (fun p => pyStartsWith file p) then none
  else if args.omit_filename_includes.any (fun n => containsSub file.toList n.toList) then none
  else if args.extensions.any (fun e => pyEndsWith file e) then
    let filename := pathJoin root file
    if pyEndsWith filename ".js" || pyEndsWith filename ".mjs" then
      if args.js then some (filename, .js) else none
    else
      if args.html then some (filename, .html) else none
  else none

/-- Lines 156–157 of `main`: the `continue` that skips a directory whose
walk path contains one of the omitted substrings. -/
def dirOmitted (args : MinifyArgs) (root : String) : Bool :=
  args.omit_dirname_includes.any fun dn => containsSub root.toList dn.toList

/-- The files one walk entry contributes for processing. -/
def processDir (args : MinifyArgs) (root : String) (files : List String) :
    List (String × FileKind) :=
  if dirOmitted args root then []
  else files.filterMap (classifyFile args root)

/-- All files the walk starting at `root` dispatches to a minifier, in
order. -/
def processedFiles (args : MinifyArgs) (root : String) (tree : FsDir) :
    List (String × FileKind) :=
  (osWalk root tree).flatMap fun e => processDir args e.1 e.2

/-- The directory paths the walk enumerates (one `os.listdir`-backed
entry each) — `main` never prunes the walk's `dirs` list, so this is
independent of the omit options. -/
def walkedRoots (root : String) (tree : FsDir) : List String :=
  (osWalk root tree).map fun e => e.1

/-- A sample directory tree: the walk root `r` holds a file `c.html` and
a subdirectory `skip`, which holds `b.html` and a further subdirectory
`sub` holding `a.html`. -/
def skipTree : FsDir :=
  .mk "r" [.mk "skip" [.mk "sub" [] ["a.html"]] ["b.html"]] ["c.html"]

/-- Sample arguments omitting directories whose path contains `skip`. -/
def skipArgs : MinifyArgs :=
  { omit_dirname_includes := ["skip"]
    omit_filename_starts_with := []
    omit_filename_includes := []
    extensions := [".html"]
    js := false
    html := true }

/-- Sample arguments with both minifiers enabled and `.mjs` among the
selected extensions. -/
def mjsArgs : MinifyArgs :=
  { omit_dirname_includes := []
    omit_filename_starts_with := ["tmp"]
    omit_filename_includes := ["-min."]
    extensions := [".html", ".mjs"]
    js := true
    html := true }

/-! ## Theorems -/

/-! ### Supporting lemmas -/

theorem containsSub_cons_false {c : Char} {t n : List Char}
    (h : containsSub (c :: t) n = false) : containsSub t n = false := by
  rw [containsSub] at h
  exact (Bool.or_eq_false_iff.mp h).2

theorem removeBCAux_id :
    ∀ (fuel : Nat) (l : List Char), containsSub l ['/', '*'] = false →
      removeBCAux fuel l = l := by
  intro fuel
  induction fuel with
  | zero => intro l _; rfl
  | succ n ih =>
      intro l h
      revert h
      show containsSub l ['/', '*'] = false →
          (match l with
           | '/' :: '*' :: rest =>
               match findCommentClose rest with
               | some rest2 => removeBCAux n rest2
               | none => '/' :: '*' :: rest
           | c :: rest => c :: removeBCAux n rest
           | [] => []) = l
      split
      · intro h; rw [containsSub] at h; simp [List.isPrefixOf] at h
      · intro h; rw [ih _ (containsSub_cons_false h)]
      · intro _; rfl

/-- If `/*` never occurs in the input, the block-comment regex cannot
match and the substitution leaves the input unchanged. -/
theorem removeBlockComments_id {l : List Char}
    (h : containsSub l ['/', '*'] = false) : removeBlockComments l = l :=
  removeBCAux_id l.length l h

/-- Claim C5: The claim is right and the code is wrong: for *every* file
content, `jsonc.load` fails with a `TypeError` instead of returning the
parsed value, because it passes the list `f.readlines()` to `loads`,
whose `re.sub` call requires a string. -/
theorem jsonc_load_always_type_error (contents : String) :
    loadPy contents = .error .typeError := rfl

/-- Claim C1, counterexample: In the document `"/*\n //*/1"` the second
raw line `" //*/1"` consists of leading whitespace followed by `//`, yet
the block-comment removal (which runs *before* the line filter) splices
it into the surviving text: the document parses to the number `1`, whose
sole character comes from that line, while the document without that line
(`"/*"`) does not parse at all. So a whitespace-`//` line *can*
contribute to the parsed value. -/
theorem jsonc_comment_line_contributes_inside_block_comment :
    splitLineRuns ("/*\n //*/1".toList) = [['/', '*'], [' ', '/', '/', '*', '/', '1']] ∧
    isCommentLine [' ', '/', '/', '*', '/', '1'] = true ∧
    jsoncLoads "/*\n //*/1" = some (.num "1") ∧
    jsoncLoads "/*" = none := by
  refine ⟨by decide, by decide, rfl, rfl⟩

/-- Claim C1, amended: `loads` removes non-greedy `/*…*/` block comments,
splits on CR/LF runs, discards lines whose stripped content starts with
`//`, rejoins with `\n` and hands the result to the JSON parser; and the
whitespace-`//` line exclusion holds for every document in which `/*`
does not occur (where block-comment removal is the identity): the parsed
text is exactly the newline-join of the document's non-comment lines, so
such a line never contributes. (Without that restriction the exclusion
fails, see the counterexample.) -/
theorem jsonc_loads_pipeline_comment_exclusion :
    (∀ s : String, jsoncLoads s = parseJson (jsoncStrip s)) ∧
    (∀ s : String, containsSub s.toList ['/', '*'] = false →
      jsoncStrip s = String.intercalate "\n"
        (((splitLineRuns s.toList).filter fun l => !isCommentLine l).map fun l => String.mk l)) := by
  constructor
  · intro s; rfl
  · intro s h
    unfold jsoncStrip commentFreeJoin
    rw [removeBlockComments_id h]

/-- Witness for the amended C1 at the document `"// a\n1"`. -/
theorem jsonc_loads_pipeline_comment_exclusion_check :
    containsSub ("// a\n1".toList) ['/', '*'] = false ∧
    jsoncStrip "// a\n1" = String.intercalate "\n"
      (((splitLineRuns ("// a\n1".toList)).filter fun l => !isCommentLine l).map fun l => String.mk l) :=
  ⟨by decide, jsonc_loads_pipeline_comment_exclusion.2 "// a\n1" (by decide)⟩

/-- `minify_js_file` returns 429 exactly on an HTTP 429 response, and in
that case leaves the content unchanged. -/
theorem minifyJsStep_429 (dry : Bool) (r : JsResponse) (content : String)
    (h : respIs429 r = true) : minifyJsStep dry r content = (content, some 429) := by
  cases r with
  | transport => simp [respIs429] at h
  | http status body =>
      simp only [respIs429, beq_iff_eq] at h
      subst h
      simp [minifyJsStep, isHttpErrorStatus]

theorem minifyJsStep_not_429 (dry : Bool) (r : JsResponse) (content : String)
    (h : respIs429 r = false) : (minifyJsStep dry r content).2 ≠ some 429 := by
  cases r with
  | transport => simp [minifyJsStep]
  | http status body =>
      simp only [respIs429, beq_eq_false_iff_ne, ne_eq] at h
      simp only [minifyJsStep]
      by_cases hs : isHttpErrorStatus status = true
      · rw [if_pos hs, if_neg h]; simp
      · rw [if_neg hs]; split <;> simp

/-- Claim C3: (general part) When a run of all-429 responses is followed by
a non-429 response, the retry loop issues one request per response —
`pre.length + 1` in total — sleeps 90 seconds after each 429 (and only
then), and ends with the file content produced by the final attempt on
the original content; (concrete part) for responses `[429, 429, 200 b]`
with a non-error body `b`, that is exactly three requests, two 90-second
waits, and final content `b`. -/
theorem minify_js_retries_on_429 :
    (∀ (pre : List JsResponse) (last : JsResponse) (content : String),
      (∀ r ∈ pre, respIs429 r = true) → respIs429 last = false →
      jsRetryLoop false (pre ++ [last]) content =
        ⟨(minifyJsStep false last content).1, pre.length + 1, 90 * pre.length⟩) ∧
    (∀ (e1 e2 b content : String), pyStartsWith b "// Error" = false →
      jsRetryLoop false [.http 429 e1, .http 429 e2, .http 200 b] content =
        ⟨b, 3, 180⟩) := by
  have general : ∀ (pre : List JsResponse) (last : JsResponse) (content : String),
      (∀ r ∈ pre, respIs429 r = true) → respIs429 last = false →
      jsRetryLoop false (pre ++ [last]) content =
        ⟨(minifyJsStep false last content).1, pre.length + 1, 90 * pre.length⟩ := by
    intro pre
    induction pre with
    | nil =>
        intro last content _ hlast
        simp only [List.nil_append, jsRetryLoop]
        have h2 := minifyJsStep_not_429 false last content hlast
        rw [if_neg (by simpa using h2)]
        simp
    | cons r pre ih =>
        intro last content hall hlast
        have hr : respIs429 r = true := hall r (by simp)
        simp only [List.cons_append, jsRetryLoop, minifyJsStep_429 false r content hr,
          List.append_eq]
        rw [if_pos trivial, ih last content (fun x hx => hall x (by simp [hx])) hlast]
        simp only [RetryOutcome.mk.injEq, List.length_cons]
        refine ⟨trivial, trivial, ?_⟩
        omega
  refine ⟨general, ?_⟩
  intro e1 e2 b content hb
  have h := general [.http 429 e1, .http 429 e2] (.http 200 b) content
    (by
      intro r hr
      rcases List.mem_cons.mp hr with rfl | hr
      · rfl
      · rcases List.mem_cons.mp hr with rfl | hr
        · rfl
        · simp at hr)
    (by simp [respIs429])
  simp only [List.cons_append, List.nil_append] at h
  rw [h]
  simp [minifyJsStep, isHttpErrorStatus, hb]

/-- Witness for C3 at the response sequence `[429, 429, 200 "min()"]`. -/
theorem minify_js_retries_on_429_check :
    pyStartsWith "min()" "// Error" = false ∧
    jsRetryLoop false [.http 429 "slow down", .http 429 "slow down", .http 200 "min()"] "orig" =
      ⟨"min()", 3, 180⟩ :=
  ⟨rfl, minify_js_retries_on_429.2 "slow down" "slow down" "min()" "orig" rfl⟩

/-- Claim C4: On every failure path of `minify_js_file` — error-marker
body, HTTP error status (429 or not), transport failure — the file
content is exactly what it was before the attempt (dry run or not); and
conversely the content changes only when a successful minification
result was obtained. -/
theorem minify_js_failure_preserves_content :
    (∀ (dry : Bool) (r : JsResponse) (content : String),
      jsAttemptFails r = true → (minifyJsStep dry r content).1 = content) ∧
    (∀ (r : JsResponse) (content : String),
      (minifyJsStep false r content).1 ≠ content → jsAttemptSucceeds r = true) := by
  constructor
  · intro dry r content h
    cases r with
    | transport => rfl
    | http status body =>
        simp only [jsAttemptFails] at h
        simp only [minifyJsStep]
        split
        · split <;> rfl
        · rename_i hstat
          rw [if_neg hstat] at h
          simp [h]
  · intro r content h
    cases r with
    | transport => simp [minifyJsStep] at h
    | http status body =>
        simp only [minifyJsStep] at h
        simp only [jsAttemptSucceeds]
        by_cases hstat : isHttpErrorStatus status = true
        · rw [if_pos hstat] at h
          split at h <;> simp at h
        · rw [if_neg hstat] at h
          by_cases hbody : pyStartsWith body "// Error" = true
          · simp [hbody] at h
          · simp_all

/-- Witness for C4: an error-marker body and a 500 status leave the
content unchanged; a changed content implies a successful response. -/
theorem minify_js_failure_preserves_content_check :
    jsAttemptFails (.http 200 "// Error: bad input") = true ∧
    (minifyJsStep false (.http 200 "// Error: bad input") "keep me").1 = "keep me" ∧
    jsAttemptFails (.http 500 "oops") = true ∧
    (minifyJsStep true (.http 500 "oops") "keep me").1 = "keep me" ∧
    jsAttemptSucceeds (.http 200 "min()") = true :=
  ⟨rfl,
   minify_js_failure_preserves_content.1 false (.http 200 "// Error: bad input") "keep me" rfl,
   rfl,
   minify_js_failure_preserves_content.1 true (.http 500 "oops") "keep me" rfl,
   minify_js_failure_preserves_content.2 (.http 200 "min()") "orig" (by decide)⟩

/-- Claim C2: `make_rsync_cmd` emits its arguments in exactly the order the
spec states — verbosity flag, extra flags, exclude-from file, per-item
excludes, include-from file, per-item includes, the single
`--rsh=ssh -p<port>` token (only when both user and port are given, with
no separate port flag), `--delete`, local path, remote target
(`user:remote_path` with a user, bare `remote_path` without): the code's
construction coincides with `rsyncCmdSpec`, the direct transcription of
the spec's order, for every container and verbosity. -/
theorem make_rsync_cmd_argument_order (v : Int) (c : Container) :
    makeRsyncCmd v c = rsyncCmdSpec v c := by
  have hverb : ∀ (P Q : Prop) [Decidable P] [Decidable Q] (r A B : List String),
      (if P then r ++ A else if Q then r ++ B else r) =
        r ++ (if P then A else if Q then B else []) := by
    intro P Q _ _ r A B
    by_cases hP : P <;> by_cases hQ : Q <;> simp [hP, hQ]
  have hflags : ∀ (X l : List String), (if !l.isEmpty then X ++ l else X) = X ++ l := by
    intro X l; cases l <;> simp
  have hmatch : ∀ (o : Option String) (X : List String) (g : String → List String),
      (match o with
       | some f => if !f.isEmpty then X ++ g f else X
       | none => X) =
      X ++ (match o with | some f => if !f.isEmpty then g f else [] | none => []) := by
    intro o X g
    cases o with
    | none => simp
    | some f => by_cases hf : f.isEmpty <;> simp [hf]
  have hflat : ∀ (X l : List String) (f : String → List String),
      (if !l.isEmpty then X ++ (l.map f).flatten else X) = X ++ (l.map f).flatten := by
    intro X l f; cases l <;> simp
  have hifp : ∀ (P : Prop) [Decidable P] (X A : List String),
      (if P then X ++ A else X) = X ++ (if P then A else []) := by
    intro P _ X A; split <;> simp
  have hlocal : ∀ sd : String,
      (if !pyEndsWith sd pathSep && !pyEndsWith sd "/" then sd ++ pathSep else sd) =
        (if pyEndsWith sd "/" then sd else sd ++ "/") := by
    intro sd; by_cases h : pyEndsWith sd "/" <;> simp [pathSep, h]
  have hremote : ∀ (P : Prop) [Decidable P] (u rp : String),
      String.intercalate ":" ((if P then [u] else []) ++ [rp]) =
        (if P then u ++ ":" ++ rp else rp) := by
    intro P _ u rp
    by_cases h : P <;> simp [h, String.intercalate, String.intercalate.go]
  simp only [makeRsyncCmd, rsyncCmdSpec]
  rw [hverb, hflags, hmatch, hflat, hmatch, hflat, hifp, hifp, hlocal, hremote]

/-- Claim C6, counterexample: The config option's default is
`_deploy.json`, not `_deploy.jsonc`; and a config file whose content is
valid JSON only after comment removal (here a `//` comment line above an
empty object, which the repository's own comment-tolerant loader accepts)
is *rejected* by `config_file`, which calls the plain `json.loads`. -/
theorem deploy_config_rejects_comments :
    deployConfigDefault ≠ "_deploy.jsonc" ∧
    jsoncLoads "// deploy settings\n\x7b\x7d" = some (.obj []) ∧
    configFileParse "// deploy settings\n\x7b\x7d" = .error () := by
  refine ⟨by decide, rfl, rfl⟩

/-- Claim C6, amended: The `-c` (`--config`) option defaults to
`_deploy.json`, and `config_file` parses the file with the standard JSON
parser directly — it succeeds exactly on plain JSON, so comment lines
are not tolerated. -/
theorem deploy_config_plain_json :
    deployConfigDefault = "_deploy.json" ∧
    (∀ (contents : String) (v : Json),
      parseJson contents = some v → configFileParse contents = .ok v) := by
  refine ⟨rfl, ?_⟩
  intro contents v h
  simp [configFileParse, h]

/-- Witness for the amended C6 at the plain-JSON config `{}`. -/
theorem deploy_config_plain_json_check :
    parseJson "\x7b\x7d" = some (Json.obj []) ∧
    configFileParse "\x7b\x7d" = .ok (Json.obj []) :=
  ⟨rfl, deploy_config_plain_json.2 "\x7b\x7d" (Json.obj []) rfl⟩

/-- Claim C8, counterexample: For the scenario config and source
`./_site`, the constructed command is *not*
`["rsync", "--delete", "./_site/", "u:/srv/site"]`: the default `-avz`
flags token (from the config default `flags = '-avz'`) is present in the
actual list. -/
theorem deploy_scenario_missing_avz :
    deployMainCmd 0 scenarioCfg "./_site" ≠
      some ["rsync", "--delete", "./_site/", "u:/srv/site"] := by
  decide

/-- Claim C8, amended: Parsing the scenario config text yields the
scenario config object, and for it (at default verbosity 0, with the
validated source path `./_site`) the constructed command equals
`["rsync", "-avz", "--delete", "./_site/", "u:/srv/site"]` — as the
claim states but with the default `-avz` flags token actually in the
list, between `rsync` and `--delete`. (In the full CLI, `valid_directory`
additionally replaces `./_site` by its absolute path.) -/
theorem deploy_scenario_command :
    parseJson scenarioCfgText = some scenarioCfg ∧
    deployMainCmd 0 scenarioCfg "./_site" =
      some ["rsync", "-avz", "--delete", "./_site/", "u:/srv/site"] := by
  refine ⟨rfl, rfl⟩

/-- Claim C9: Normalisation of string-valued config entries: a string
`flags` yields the same constructed command as the token list
`shlex.split` produces from it, and a string `include` (or `exclude`)
yields the same command as the singleton list containing it — for every
raw config, verbosity and source. -/
theorem config_string_forms_equivalent :
    (∀ (v : Int) (rc : RawConfig) (source s : String) (tokens : List String),
      shlexSplit s = some tokens →
      cmdFromRaw v { rc with flags := .str s } source =
        cmdFromRaw v { rc with flags := .list tokens } source) ∧
    (∀ (v : Int) (rc : RawConfig) (source s : String),
      cmdFromRaw v { rc with include_items := .str s } source =
        cmdFromRaw v { rc with include_items := .list [s] } source) ∧
    (∀ (v : Int) (rc : RawConfig) (source s : String),
      cmdFromRaw v { rc with exclude := .str s } source =
        cmdFromRaw v { rc with exclude := .list [s] } source) := by
  refine ⟨?_, ?_, ?_⟩ <;> intros <;> simp [cmdFromRaw, buildContainer, *]

/-- Witness for C9 at `flags = "-a -z"` and singleton
`include`/`exclude` strings. -/
theorem config_string_forms_equivalent_check :
    shlexSplit "-a -z" = some ["-a", "-z"] ∧
    cmdFromRaw 0 { witnessRawConfig with flags := .str "-a -z" } "/site" =
      cmdFromRaw 0 { witnessRawConfig with flags := .list ["-a", "-z"] } "/site" ∧
    cmdFromRaw 0 { witnessRawConfig with include_items := .str "inc" } "/site" =
      cmdFromRaw 0 { witnessRawConfig with include_items := .list ["inc"] } "/site" ∧
    cmdFromRaw 0 { witnessRawConfig with exclude := .str "exc" } "/site" =
      cmdFromRaw 0 { witnessRawConfig with exclude := .list ["exc"] } "/site" :=
  ⟨rfl,
   config_string_forms_equivalent.1 0 witnessRawConfig "/site" "-a -z" ["-a", "-z"] rfl,
   config_string_forms_equivalent.2.1 0 witnessRawConfig "/site" "inc",
   config_string_forms_equivalent.2.2 0 witnessRawConfig "/site" "exc"⟩

theorem containsSub_append {h : List Char} (t : List Char) {n : List Char}
    (hc : containsSub h n = true) : containsSub (h ++ t) n = true := by
  induction h with
  | nil =>
      rw [containsSub] at hc
      simp only [Bool.or_false] at hc
      have hn : n = [] := by
        have := List.isPrefixOf_iff_prefix.mp hc
        simpa using this
      subst hn
      simp only [List.nil_append]
      rw [containsSub.eq_def]
      simp [List.isPrefixOf]
  | cons c h2 ih =>
      rw [containsSub] at hc
      rw [List.cons_append, containsSub]
      rcases Bool.or_eq_true_iff.mp hc with hp | hrest
      · have hpre : n <+: (c :: h2) ++ t :=
          (List.isPrefixOf_iff_prefix.mp hp).trans (List.prefix_append _ _)
        rw [List.cons_append] at hpre
        exact Bool.or_eq_true_iff.mpr (Or.inl (List.isPrefixOf_iff_prefix.mpr hpre))
      · exact Bool.or_eq_true_iff.mpr (Or.inr (ih hrest))

/-- An omitted directory path stays omitted under path extension: every
descendant's walk path contains the parent's path, hence the same
substring. -/
theorem dirOmitted_extends {args : MinifyArgs} {root : String}
    (h : dirOmitted args root = true) (x : String) :
    dirOmitted args (root ++ x) = true := by
  unfold dirOmitted at h ⊢
  rcases List.any_eq_true.mp h with ⟨dn, hmem, hdn⟩
  refine List.any_eq_true.mpr ⟨dn, hmem, ?_⟩
  have : (root ++ x).toList = root.toList ++ x.toList := by simp
  rw [this]
  exact containsSub_append x.toList hdn

mutual

theorem walkOmittedAux (args : MinifyArgs) (root : String) (tree : FsDir)
    (h : dirOmitted args root = true) :
    (osWalk root tree).flatMap (fun e => processDir args e.1 e.2) = [] := by
  match tree with
  | .mk n subs files =>
      show ((root, files) :: osWalkList root subs).flatMap
        (fun e => processDir args e.1 e.2) = []
      rw [List.flatMap_cons]
      have h1 : processDir args root files = [] := by
        unfold processDir
        rw [if_pos h]
      rw [h1, List.nil_append]
      exact walkListOmittedAux args root subs h

theorem walkListOmittedAux (args : MinifyArgs) (root : String) (subs : List FsDir)
    (h : dirOmitted args root = true) :
    (osWalkList root subs).flatMap (fun e => processDir args e.1 e.2) = [] := by
  match subs with
  | [] => rfl
  | d :: rest =>
      show (osWalk (pathJoin root d.name) d ++ osWalkList root rest).flatMap
        (fun e => processDir args e.1 e.2) = []
      rw [List.flatMap_append]
      have hchild : dirOmitted args (pathJoin root d.name) = true := by
        have := dirOmitted_extends h ("/" ++ d.name)
        simpa [pathJoin, String.append_assoc] using this
      rw [walkOmittedAux args (pathJoin root d.name) d hchild,
        walkListOmittedAux args root rest h]
      rfl

end

/-- Claim C7, amended: A directory whose walk path contains a configured
omit substring contributes zero processed files, and so does every one of
its descendants — each descendant's path extends the parent's path, so
it contains the same substring and is skipped by the same per-directory
test. (The walk itself still enumerates the children; see the
counterexample.) -/
theorem omitted_directory_contributes_no_files
    (args : MinifyArgs) (root : String) (tree : FsDir)
    (h : dirOmitted args root = true) :
    processedFiles args root tree = [] := by
  unfold processedFiles
  exact walkOmittedAux args root tree h

/-- Claim C7, counterexample: The walk is *not* pruned at an omitted
directory: `main` never mutates the `dirs` list of `os.walk`, so the
children of the omitted `r/skip` are still descended into — the walk
enumerates `r/skip/sub` (reading its directory listing) even though
`r/skip` matches the omit substring. The observable half of the claim
does hold: zero files under `r/skip` are processed. -/
theorem walk_enumerates_children_of_omitted_dir :
    dirOmitted skipArgs "r/skip" = true ∧
    walkedRoots "r" skipTree = ["r", "r/skip", "r/skip/sub"] ∧
    processedFiles skipArgs "r" skipTree = [("r/c.html", .html)] := by
  refine ⟨by decide, rfl, by decide⟩

/-- Witness for the amended C7: the omitted subtree rooted at `r/skip`
contributes no processed files. -/
theorem omitted_directory_contributes_no_files_check :
    dirOmitted skipArgs "r/skip" = true ∧
    processedFiles skipArgs "r/skip" (.mk "skip" [.mk "sub" [] ["a.html"]] ["b.html"]) = [] :=
  ⟨by decide,
   omitted_directory_contributes_no_files skipArgs "r/skip"
     (.mk "skip" [.mk "sub" [] ["a.html"]] ["b.html"]) (by decide)⟩

theorem pyEndsWith_append (a b s : String) (h : pyEndsWith b s = true) :
    pyEndsWith (a ++ b) s = true := by
  unfold pyEndsWith at h ⊢
  have hl : (a ++ b).toList = a.toList ++ b.toList := by simp
  rw [hl]
  have hs := List.isSuffixOf_iff_suffix.mp h
  exact List.isSuffixOf_iff_suffix.mpr (hs.trans (List.suffix_append _ _))

/-- Claim C10: In a walk with JavaScript mode enabled and `.mjs` among the
selected extensions, a file whose basename ends with `.mjs` and is not
excluded by the filename filters is dispatched to the JavaScript
minifier — never to the HTML one — exactly as a `.js` file would be
(the dispatch tests `filename.endswith('.js') or
filename.endswith('.mjs')`). -/
theorem mjs_dispatched_to_js_minifier
    (args : MinifyArgs) (root file : String)
    (hjs : args.js = true)
    (hext : ".mjs" ∈ args.extensions)
    (hmjs : pyEndsWith file ".mjs" = true)
    (hp : args.omit_filename_starts_with.any (fun p => pyStartsWith file p) = false)
    (hi : args.omit_filename_includes.any (fun n => containsSub file.toList n.toList) = false) :
    classifyFile args root file = some (pathJoin root file, .js) := by
  unfold classifyFile
  have hany : args.extensions.any (fun e => pyEndsWith file e) = true :=
    List.any_eq_true.mpr ⟨".mjs", hext, hmjs⟩
  have hfn : pyEndsWith (pathJoin root file) ".mjs" = true := by
    unfold pathJoin
    exact pyEndsWith_append _ _ _ hmjs
  simp only [List.any_eq_false] at hi
  simp [hp, hany, hfn, hjs]
  intro x hx
  exact Bool.eq_false_iff.mpr (hi x hx)

/-- Witness for C10 at the file `app.mjs` under root `r`. -/
theorem mjs_dispatched_to_js_minifier_check :
    mjsArgs.js = true ∧
    ".mjs" ∈ mjsArgs.extensions ∧
    pyEndsWith "app.mjs" ".mjs" = true ∧
    classifyFile mjsArgs "r" "app.mjs" = some ("r/app.mjs", .js) :=
  ⟨rfl, by decide, rfl,
   mjs_dispatched_to_js_minifier mjsArgs "r" "app.mjs" rfl (by decide) rfl rfl rfl⟩

end JekyllBuild
